import Mathlib

/-!
Shallow embedding of the voice-session orchestrator of memejoin-rs.

Sources embedded:
- `src/main.rs` — the orchestrator: `Handler::voice_state_update`,
  `TrackEventHandler::act`, and the inbox consumer loop of `spawn_bot`
  with its three arms (`Ready`, `TrackEnded`, `PlaySound`).
- `src/settings.rs` — the configuration data model (`Settings`,
  `GuildSettings`, `ChannelSettings`, `UserSettings`, `IntroIndex`,
  `Intro`).
- `src/auth.rs` — the permission bitmask (`Permissions`, `Permission`).

Rust `HashMap`s are embedded as association lists with `List.lookup`;
the external platform (serenity cache, songbird voice manager, ffmpeg
and youtube-dl subprocesses) is an oracle `Env` whose answers drive the
fallible external calls, and the side effects the orchestrator performs
against the platform are recorded as an `Action` trace.
-/

namespace Memejoin

/-! ## Configuration data model (src/settings.rs) -/

/-- One configured intro reference of a user (`IntroIndex` in
src/settings.rs): the key into the guild's intro table plus a volume. -/
structure IntroIndex where
  index : String
  volume : Int
deriving DecidableEq, Repr

/-- Per-channel settings of one user (`UserSettings`): the list of
configured intros, in stored order. -/
structure UserSettings where
  intros : List IntroIndex
deriving DecidableEq, Repr

/-- A file-backed intro (`FileIntro`); the friendly name is dropped as it
is only used by the excluded dashboard. -/
structure FileIntro where
  filename : String
deriving DecidableEq, Repr

/-- A remote-media intro (`OnlineIntro`). -/
structure OnlineIntro where
  url : String
deriving DecidableEq, Repr

/-- An intro source descriptor (`Intro` in src/settings.rs): local file or
remote media. -/
inductive Intro where
  | File (f : FileIntro)
  | Online (o : OnlineIntro)
deriving DecidableEq, Repr

/-- Per-channel configuration (`ChannelSettings`): users keyed by name. -/
structure ChannelSettings where
  users : List (String × UserSettings)
deriving DecidableEq, Repr

/-- Per-guild configuration (`GuildSettings`); only the fields the
orchestrator reads are kept (`channels` and `intros`), plus the scalar
fields for fidelity. -/
structure GuildSettings where
  name : String
  soundDelay : Nat
  channels : List (String × ChannelSettings)
  intros : List (String × Intro)
deriving DecidableEq, Repr

/-- Top-level configuration (`Settings`); `guilds` is the only field the
orchestrator reads (`run_api`, `run_bot` and `auth_users` feed the
excluded API surface). -/
structure Settings where
  guilds : List (Nat × GuildSettings)
deriving DecidableEq, Repr

/-! ## Platform-side data (serenity types used by src/main.rs) -/

/-- The fields of a serenity `Member` the orchestrator reads:
`member.user.name` and `member.guild_id`. -/
structure Member where
  userName : String
  guildId : Nat
deriving DecidableEq, Repr

/-- The fields of a serenity `VoiceState` read by
`Handler::voice_state_update`: the member and the channel id. -/
structure VoiceState where
  member : Option Member
  channelId : Option Nat
deriving DecidableEq, Repr

/-- A cached guild channel, the result of `channel_id.to_channel_cached`
when it yields `Channel::Guild`: its guild id and its name. -/
structure GuildChannel where
  guildId : Nat
  name : String
deriving DecidableEq, Repr

/-- The orchestrator inbox message (`HandlerMessage` in src/main.rs). The
serenity `Context` payload is dropped: its only use is the cache lookup,
which the oracle `Env` answers. -/
inductive HandlerMessage where
  | Ready
  | PlaySound (member : Member) (channelId : Nat)
  | TrackEnded (guildId : Nat)
deriving DecidableEq, Repr

/-- Oracle for the external platform: the serenity channel cache, the
outcome of the ffmpeg / youtube-dl source subprocesses, and the outcome
of the songbird join and leave calls. -/
structure Env where
  channelCache : Nat → Option GuildChannel
  sourceOk : Intro → Bool
  joinOk : Nat → Nat → Bool
  leaveOk : Nat → Bool

/-- Observable side effects of one pass of the consumer loop, recorded in
order: log lines by level, listener registrations, and the songbird
join / enqueue / leave calls. -/
inductive Action where
  | logInfo (msg : String)
  | logError (msg : String)
  | registerListener (guildId : Nat)
  | join (guildId : Nat) (channelId : Nat)
  | enqueue (guildId : Nat) (source : Intro)
  | leave (guildId : Nat)
deriving DecidableEq, Repr

/-- The state of one songbird `Call` (per guild): the voice channel it is
connected to, its track queue, and how many global track-end event
handlers `add_global_event` has attached. -/
structure CallState where
  joinedChannel : Option Nat
  queue : List Intro
  listeners : Nat
deriving DecidableEq, Repr

/-- A freshly created `Call`: not connected, empty queue, no listeners. -/
def emptyCall : CallState := { joinedChannel := none, queue := [], listeners := 0 }

/-- Songbird `Songbird::get_or_insert`: keep the map unchanged when the
guild already has a `Call`, otherwise add a fresh one. -/
def getOrInsert (calls : List (Nat × CallState)) (g : Nat) : List (Nat × CallState) :=
  match List.lookup g calls with
  | some _ => calls
  | none => calls ++ [(g, emptyCall)]

/-- Update the `Call` of guild `g` in place (first matching key). -/
def updateCall (calls : List (Nat × CallState)) (g : Nat) (f : CallState → CallState) :
    List (Nat × CallState) :=
  match calls with
  | [] => []
  | (k, c) :: rest => if k = g then (k, f c) :: rest else (k, c) :: updateCall rest g f

/-! ## The inbox consumer loop (spawn_bot in src/main.rs) -/

/-- The `Ready` arm's per-guild body: `get_or_insert` the guild's call and
`add_global_event` a track-end handler on it (src/main.rs lines 194-206). -/
def readyStep (calls : List (Nat × CallState)) (g : Nat) : List (Nat × CallState) :=
  updateCall (getOrInsert calls g) g (fun c => { c with listeners := c.listeners + 1 })

/-- The `HandlerMessage::Ready` arm: for every guild key of the settings,
register one track-end event listener (src/main.rs lines 188-207). -/
def processReady (settings : Settings) (calls : List (Nat × CallState)) :
    List (Nat × CallState) × List Action :=
  (settings.guilds.foldl (fun cs p => readyStep cs p.1) calls,
   Action.logInfo "Got Ready message" ::
     settings.guilds.map (fun p => Action.registerListener p.1))

/-- The `HandlerMessage::TrackEnded` arm (src/main.rs lines 208-222): look
up the guild's call; when its queue is empty, call `handler.leave()` and
log an error if that call fails. Leaving a call that is not connected to
a channel is a no-op that succeeds (platform behavior per the spec:
leaving an already-left channel is a no-op, not an error); leaving always
clears the connected channel, even when the platform call fails. -/
def processTrackEnded (env : Env) (calls : List (Nat × CallState)) (g : Nat) :
    List (Nat × CallState) × List Action :=
  match List.lookup g calls with
  | none => (calls, [Action.logInfo "Got TrackEnded message"])
  | some call =>
    if call.queue.isEmpty then
      (updateCall calls g (fun c => { c with joinedChannel := none }),
       [Action.logInfo "Got TrackEnded message",
        Action.logInfo "Track Queue is empty, leaving voice channel",
        Action.leave g] ++
         (if call.joinedChannel.isSome && !env.leaveOk g
          then [Action.logError "Failed to leave channel"] else []))
    else (calls, [Action.logInfo "Got TrackEnded message"])

/-- The resolution chain of the `PlaySound` arm (src/main.rs lines
228-282): cached channel, guild settings, channel settings, user
settings, the user's first configured intro (`user.intros.first()`), and
that intro's entry in the guild intro table. Each failing step is the
error text the corresponding `continue` branch logs. -/
def resolveIntro (env : Env) (settings : Settings) (member : Member) (channelId : Nat) :
    Except String (GuildChannel × Intro) :=
  match env.channelCache channelId with
  | none => .error "Failed to get cached channel from member!"
  | some channel =>
    match List.lookup channel.guildId settings.guilds with
    | none => .error "could not get guild from id"
    | some guildSettings =>
      match List.lookup channel.name guildSettings.channels with
      | none => .error "could not get channel settings from name"
      | some channelSettings =>
        match List.lookup member.userName channelSettings.users with
        | none => .error "could not get user settings from name"
        | some user =>
          match user.intros.head? with
          | none => .error "could not get user intro, none exist"
          | some introIndex =>
            match List.lookup introIndex.index guildSettings.intros with
            | none => .error "Failed to find intro for user"
            | some intro => .ok (channel, intro)

/-- Audio source acquisition (src/main.rs lines 252-271): `songbird::ytdl`
for an `Online` intro, `songbird::ffmpeg` for a `File` intro; the oracle
decides whether the subprocess succeeds. -/
def acquireSource (env : Env) (intro : Intro) : Except String Intro :=
  match intro with
  | Intro.Online _ =>
    if env.sourceOk intro then .ok intro else .error "Error starting youtube source"
  | Intro.File _ =>
    if env.sourceOk intro then .ok intro else .error "Error starting file source"

/-- The `HandlerMessage::PlaySound` arm (src/main.rs lines 224-296):
resolve the intro, acquire its source, then `songbird.join(member.guild_id,
channel_id)`; on join success enqueue the source on the guild's call; on
join failure log an error, the call record is left disconnected (no
dangling channel session). Every failure logs and falls through to the
next message. -/
def processPlaySound (env : Env) (settings : Settings) (calls : List (Nat × CallState))
    (member : Member) (channelId : Nat) : List (Nat × CallState) × List Action :=
  match resolveIntro env settings member channelId with
  | .error e => (calls, [Action.logInfo "Got PlaySound message", Action.logError e])
  | .ok (_, intro) =>
    match acquireSource env intro with
    | .error e => (calls, [Action.logInfo "Got PlaySound message", Action.logError e])
    | .ok source =>
      let calls1 := getOrInsert calls member.guildId
      if env.joinOk member.guildId channelId then
        (updateCall calls1 member.guildId
           (fun c => { c with joinedChannel := some channelId, queue := c.queue ++ [source] }),
         [Action.logInfo "Got PlaySound message",
          Action.join member.guildId channelId,
          Action.enqueue member.guildId source])
      else
        (updateCall calls1 member.guildId (fun c => { c with joinedChannel := none }),
         [Action.logInfo "Got PlaySound message",
          Action.join member.guildId channelId,
          Action.logError "Failed to join voice channel"])

/-- One pass of the consumer loop (the `match msg` of src/main.rs lines
187-297). -/
def processMessage (env : Env) (settings : Settings) (calls : List (Nat × CallState)) :
    HandlerMessage → List (Nat × CallState) × List Action
  | HandlerMessage.Ready => processReady settings calls
  | HandlerMessage.TrackEnded g => processTrackEnded env calls g
  | HandlerMessage.PlaySound member channelId =>
    processPlaySound env settings calls member channelId

/-- Run the consumer loop over a list of inbox messages in FIFO order,
accumulating the action trace. -/
def processMessages (env : Env) (settings : Settings) (calls : List (Nat × CallState)) :
    List HandlerMessage → List (Nat × CallState) × List Action
  | [] => (calls, [])
  | m :: rest =>
    let r := processMessage env settings calls m
    let r2 := processMessages env settings r.1 rest
    (r2.1, r.2 ++ r2.2)

/-! ## Inbox producers (src/main.rs lines 48-116) -/

/-- `Handler::voice_state_update` (src/main.rs lines 84-116): a
`PlaySound` message is produced only for a fresh voice connect (`old` is
`None`), with both member and channel present, and not for the bot's own
sentinel username. -/
def voiceStateUpdate (old : Option VoiceState) (next : VoiceState) : Option HandlerMessage :=
  match old with
  | some _ => none
  | none =>
    match next.member, next.channelId with
    | some m, some c =>
      if m.userName = "MemeJoin" then none
      else some (HandlerMessage.PlaySound m c)
    | _, _ => none

/-- Completion of the currently playing track of guild `g`. Modelled from
the spec: songbird's playback engine (not part of this repository) pops
the finished track off the queue and then fires the track-end event once
per registered global handler; each firing of `TrackEventHandler::act`
(src/main.rs lines 48-66) sends one `TrackEnded` inbox message. -/
def completeTrack (calls : List (Nat × CallState)) (g : Nat) :
    List (Nat × CallState) × List HandlerMessage :=
  match List.lookup g calls with
  | some c =>
    (updateCall calls g (fun c2 => { c2 with queue := c2.queue.tail }),
     List.replicate c.listeners (HandlerMessage.TrackEnded g))
  | none => (calls, [])

/-! ## Permissions (src/auth.rs) -/

/-- The capability flags (`Permission` in src/auth.rs) with their `repr(u8)`
discriminants. -/
inductive Permission where
  | NoPerm
  | UploadSounds
  | DeleteSounds
  | Soundboard
  | Moderator
deriving DecidableEq, Repr

/-- The `repr(u8)` value of each flag (src/auth.rs lines 49-55). -/
def Permission.toBits : Permission → Nat
  | .NoPerm => 0
  | .UploadSounds => 1
  | .DeleteSounds => 2
  | .Soundboard => 4
  | .Moderator => 128

/-- The permission bitmask (`Permissions(u8)` in src/auth.rs). -/
structure Permissions where
  bits : Nat
deriving DecidableEq, Repr

/-- `Permissions::can` (src/auth.rs lines 38-40): the specific bit is set,
or the `Moderator` bit is set. -/
def Permissions.can (p : Permissions) (perm : Permission) : Bool :=
  decide (0 < p.bits &&& perm.toBits) || decide (0 < p.bits &&& Permission.Moderator.toBits)

/-- `Permissions::add` (src/auth.rs lines 42-44). -/
def Permissions.add (p : Permissions) (perm : Permission) : Permissions :=
  ⟨p.bits ||| perm.toBits⟩

/-! ## Trace and session observations -/

/-- Whether an action is a platform join call. -/
def Action.isJoinCall : Action → Bool
  | .join _ _ => true
  | _ => false

/-- Whether an action is a platform leave call. -/
def Action.isLeaveCall : Action → Bool
  | .leave _ => true
  | _ => false

/-- Whether an action is an error-level log line. -/
def Action.isErrorLog : Action → Bool
  | .logError _ => true
  | _ => false

/-- Whether an action is an enqueue of a source. -/
def Action.isEnqueueCall : Action → Bool
  | .enqueue _ _ => true
  | _ => false

/-- Number of platform join calls in a trace. -/
def joinCalls (acts : List Action) : Nat := acts.countP Action.isJoinCall

/-- Number of platform leave calls in a trace. -/
def leaveCalls (acts : List Action) : Nat := acts.countP Action.isLeaveCall

/-- Number of error-level log lines in a trace. -/
def errorLogs (acts : List Action) : Nat := acts.countP Action.isErrorLog

/-- Number of enqueue calls in a trace. -/
def enqueueCalls (acts : List Action) : Nat := acts.countP Action.isEnqueueCall

/-- Number of active channel playback sessions for channel `ch`: call
records currently connected to that channel. -/
def sessionCount (calls : List (Nat × CallState)) (ch : Nat) : Nat :=
  (calls.filter (fun p => decide (p.2.joinedChannel = some ch))).length

/-- Number of registered track-end listeners on guild `g`'s call. -/
def listenerCount (calls : List (Nat × CallState)) (g : Nat) : Nat :=
  match List.lookup g calls with
  | some c => c.listeners
  | none => 0

/-! ## Association-list lemmas -/

theorem lookup_cons_self {β : Type} (g : Nat) (c : β) (rest : List (Nat × β)) :
    List.lookup g ((g, c) :: rest) = some c := by
  simp [List.lookup]

theorem lookup_cons_ne {β : Type} {g k : Nat} (c : β) (rest : List (Nat × β)) (h : k ≠ g) :
    List.lookup g ((k, c) :: rest) = List.lookup g rest := by
  have : (g == k) = false := by
    simp only [beq_eq_false_iff_ne, ne_eq]
    exact fun hgk => h hgk.symm
  simp [List.lookup, this]

theorem lookup_none_not_mem_keys {β : Type} {l : List (Nat × β)} {g : Nat}
    (h : List.lookup g l = none) : g ∉ l.map Prod.fst := by
  induction l with
  | nil => simp
  | cons p rest ih =>
    obtain ⟨k, c⟩ := p
    by_cases hk : k = g
    · subst hk; rw [lookup_cons_self] at h; cases h
    · rw [lookup_cons_ne c rest hk] at h
      simp only [List.map_cons, List.mem_cons]
      rintro (rfl | hmem)
      · exact hk rfl
      · exact ih h hmem

theorem lookup_append {β : Type} (g : Nat) (l1 l2 : List (Nat × β)) :
    List.lookup g (l1 ++ l2) =
      match List.lookup g l1 with
      | some c => some c
      | none => List.lookup g l2 := by
  induction l1 with
  | nil => simp [List.lookup]
  | cons p rest ih =>
    obtain ⟨k, c⟩ := p
    by_cases hk : k = g
    · subst hk
      simp only [List.cons_append, lookup_cons_self]
    · simp only [List.cons_append, lookup_cons_ne c _ hk, lookup_cons_ne c rest hk, ih]

theorem updateCall_keys (l : List (Nat × CallState)) (g : Nat) (f : CallState → CallState) :
    (updateCall l g f).map Prod.fst = l.map Prod.fst := by
  induction l with
  | nil => rfl
  | cons p rest ih =>
    obtain ⟨k, c⟩ := p
    by_cases hk : k = g <;> simp [updateCall, hk, ih]

theorem lookup_updateCall_self {l : List (Nat × CallState)} {g : Nat} {c : CallState}
    (f : CallState → CallState) (h : List.lookup g l = some c) :
    List.lookup g (updateCall l g f) = some (f c) := by
  induction l with
  | nil => cases h
  | cons p rest ih =>
    obtain ⟨k, c2⟩ := p
    by_cases hk : k = g
    · subst hk
      rw [lookup_cons_self] at h
      cases h
      simp [updateCall, lookup_cons_self]
    · rw [lookup_cons_ne c2 rest hk] at h
      simp only [updateCall, if_neg hk]
      rw [lookup_cons_ne _ _ hk]
      exact ih h

theorem lookup_updateCall_ne {g g2 : Nat} (l : List (Nat × CallState))
    (f : CallState → CallState) (h : g ≠ g2) :
    List.lookup g (updateCall l g2 f) = List.lookup g l := by
  induction l with
  | nil => rfl
  | cons p rest ih =>
    obtain ⟨k, c⟩ := p
    by_cases hk : k = g2
    · have hkg : k ≠ g := by rw [hk]; exact Ne.symm h
      simp only [updateCall, if_pos hk]
      rw [lookup_cons_ne _ _ hkg, lookup_cons_ne _ _ hkg]
    · simp only [updateCall, if_neg hk]
      by_cases hkg : k = g
      · subst hkg; rw [lookup_cons_self, lookup_cons_self]
      · rw [lookup_cons_ne _ _ hkg, lookup_cons_ne _ _ hkg, ih]

theorem mem_updateCall {l : List (Nat × CallState)} {g : Nat} {f : CallState → CallState}
    {p : Nat × CallState} (hp : p ∈ updateCall l g f) :
    p ∈ l ∨ ∃ c, (g, c) ∈ l ∧ p = (g, f c) := by
  induction l with
  | nil => cases hp
  | cons q rest ih =>
    obtain ⟨k, c2⟩ := q
    by_cases hk : k = g
    · simp only [updateCall, if_pos hk] at hp
      rcases List.mem_cons.mp hp with h1 | h1
      · refine Or.inr ⟨c2, ?_, ?_⟩
        · rw [← hk]; exact List.mem_cons_self _ _
        · rw [h1, hk]
      · exact Or.inl (List.mem_cons_of_mem _ h1)
    · simp only [updateCall, if_neg hk] at hp
      rcases List.mem_cons.mp hp with h1 | h1
      · rw [h1]; exact Or.inl (List.mem_cons_self _ _)
      · rcases ih h1 with h2 | ⟨c, hc, he⟩
        · exact Or.inl (List.mem_cons_of_mem _ h2)
        · exact Or.inr ⟨c, List.mem_cons_of_mem _ hc, he⟩

theorem updateCall_eq_of_fix {l : List (Nat × CallState)} {g : Nat} {c : CallState}
    {f : CallState → CallState} (h : List.lookup g l = some c) (hf : f c = c) :
    updateCall l g f = l := by
  induction l with
  | nil => rfl
  | cons p rest ih =>
    obtain ⟨k, c2⟩ := p
    by_cases hk : k = g
    · subst hk
      rw [lookup_cons_self] at h
      cases h
      simp [updateCall, hf]
    · rw [lookup_cons_ne c2 rest hk] at h
      simp [updateCall, if_neg hk, ih h]

theorem getOrInsert_of_some {l : List (Nat × CallState)} {g : Nat} {c : CallState}
    (h : List.lookup g l = some c) : getOrInsert l g = l := by
  simp [getOrInsert, h]

theorem getOrInsert_of_none {l : List (Nat × CallState)} {g : Nat}
    (h : List.lookup g l = none) : getOrInsert l g = l ++ [(g, emptyCall)] := by
  simp [getOrInsert, h]

theorem lookup_getOrInsert_self (l : List (Nat × CallState)) (g : Nat) :
    List.lookup g (getOrInsert l g) = some ((List.lookup g l).getD emptyCall) := by
  cases h : List.lookup g l with
  | some c => rw [getOrInsert_of_some h, h]; rfl
  | none =>
    rw [getOrInsert_of_none h, lookup_append, h]
    simp [lookup_cons_self]

theorem lookup_getOrInsert_ne {g g2 : Nat} (l : List (Nat × CallState)) (h : g ≠ g2) :
    List.lookup g (getOrInsert l g2) = List.lookup g l := by
  cases h2 : List.lookup g2 l with
  | some c => rw [getOrInsert_of_some h2]
  | none =>
    rw [getOrInsert_of_none h2, lookup_append]
    cases h3 : List.lookup g l with
    | some c => rfl
    | none => rw [lookup_cons_ne _ _ (fun hg => h hg.symm)]; rfl

theorem mem_getOrInsert {l : List (Nat × CallState)} {g : Nat} {p : Nat × CallState}
    (hp : p ∈ getOrInsert l g) : p ∈ l ∨ p = (g, emptyCall) := by
  cases h : List.lookup g l with
  | some c => rw [getOrInsert_of_some h] at hp; exact Or.inl hp
  | none =>
    rw [getOrInsert_of_none h] at hp
    simpa using hp

/-! ## Equation lemmas for the consumer-loop arms -/

theorem processTrackEnded_of_no_call {env : Env} {calls : List (Nat × CallState)} {g : Nat}
    (hl : List.lookup g calls = none) :
    processTrackEnded env calls g = (calls, [Action.logInfo "Got TrackEnded message"]) := by
  simp [processTrackEnded, hl]

theorem processTrackEnded_of_nonempty {env : Env} {calls : List (Nat × CallState)} {g : Nat}
    {call : CallState} (hl : List.lookup g calls = some call)
    (hq : call.queue.isEmpty = false) :
    processTrackEnded env calls g = (calls, [Action.logInfo "Got TrackEnded message"]) := by
  simp [processTrackEnded, hl, hq]

theorem processTrackEnded_of_empty {env : Env} {calls : List (Nat × CallState)} {g : Nat}
    {call : CallState} (hl : List.lookup g calls = some call)
    (hq : call.queue.isEmpty = true) :
    processTrackEnded env calls g =
      (updateCall calls g (fun c => { c with joinedChannel := none }),
       [Action.logInfo "Got TrackEnded message",
        Action.logInfo "Track Queue is empty, leaving voice channel",
        Action.leave g] ++
         (if call.joinedChannel.isSome && !env.leaveOk g
          then [Action.logError "Failed to leave channel"] else [])) := by
  simp [processTrackEnded, hl, hq]

theorem acquireSource_of_ok {env : Env} {intro : Intro} (h : env.sourceOk intro = true) :
    acquireSource env intro = .ok intro := by
  cases intro <;> simp [acquireSource, h]

theorem acquireSource_of_fail {env : Env} {intro : Intro} (h : env.sourceOk intro = false) :
    ∃ e, acquireSource env intro = .error e := by
  cases intro <;> simp [acquireSource, h]

theorem processPlaySound_of_resolve_fail {env : Env} {settings : Settings}
    {calls : List (Nat × CallState)} {member : Member} {channelId : Nat} {e : String}
    (h : resolveIntro env settings member channelId = .error e) :
    processPlaySound env settings calls member channelId =
      (calls, [Action.logInfo "Got PlaySound message", Action.logError e]) := by
  simp [processPlaySound, h]

theorem processPlaySound_of_source_fail {env : Env} {settings : Settings}
    {calls : List (Nat × CallState)} {member : Member} {channelId : Nat}
    {channel : GuildChannel} {intro : Intro} {e : String}
    (hres : resolveIntro env settings member channelId = .ok (channel, intro))
    (hsrc : acquireSource env intro = .error e) :
    processPlaySound env settings calls member channelId =
      (calls, [Action.logInfo "Got PlaySound message", Action.logError e]) := by
  simp [processPlaySound, hres, hsrc]

theorem processPlaySound_of_join_ok {env : Env} {settings : Settings}
    {calls : List (Nat × CallState)} {member : Member} {channelId : Nat}
    {channel : GuildChannel} {intro : Intro}
    (hres : resolveIntro env settings member channelId = .ok (channel, intro))
    (hsrc : env.sourceOk intro = true)
    (hj : env.joinOk member.guildId channelId = true) :
    processPlaySound env settings calls member channelId =
      (updateCall (getOrInsert calls member.guildId) member.guildId
         (fun c => { c with joinedChannel := some channelId, queue := c.queue ++ [intro] }),
       [Action.logInfo "Got PlaySound message",
        Action.join member.guildId channelId,
        Action.enqueue member.guildId intro]) := by
  simp [processPlaySound, hres, acquireSource_of_ok hsrc, hj]

theorem processPlaySound_of_join_fail {env : Env} {settings : Settings}
    {calls : List (Nat × CallState)} {member : Member} {channelId : Nat}
    {channel : GuildChannel} {intro : Intro}
    (hres : resolveIntro env settings member channelId = .ok (channel, intro))
    (hsrc : env.sourceOk intro = true)
    (hj : env.joinOk member.guildId channelId = false) :
    processPlaySound env settings calls member channelId =
      (updateCall (getOrInsert calls member.guildId) member.guildId
         (fun c => { c with joinedChannel := none }),
       [Action.logInfo "Got PlaySound message",
        Action.join member.guildId channelId,
        Action.logError "Failed to join voice channel"]) := by
  simp [processPlaySound, hres, acquireSource_of_ok hsrc, hj]

/-- Inversion: a successful resolution read the cached channel it returns. -/
theorem resolveIntro_ok_cache {env : Env} {settings : Settings} {member : Member}
    {channelId : Nat} {channel : GuildChannel} {intro : Intro}
    (h : resolveIntro env settings member channelId = .ok (channel, intro)) :
    env.channelCache channelId = some channel := by
  unfold resolveIntro at h
  split at h
  · cases h
  next channel2 hc =>
    split at h
    · cases h
    next gs h2 =>
      split at h
      · cases h
      next cs h3 =>
        split at h
        · cases h
        next user h4 =>
          split at h
          · cases h
          next introIndex h5 =>
            split at h
            · cases h
            next intro2 h6 =>
              cases h
              exact hc

/-! ## The per-channel session invariant -/

/-- Well-formedness of the orchestrator state: guild keys of the call map
are unique (songbird keys calls by guild), and every connected call's
channel maps back, through the channel cache, to that call's own guild
(a platform channel belongs to exactly one guild). -/
def GoodState (env : Env) (calls : List (Nat × CallState)) : Prop :=
  (calls.map Prod.fst).Nodup ∧
  ∀ p ∈ calls, ∀ ch : Nat, p.2.joinedChannel = some ch →
    Option.map GuildChannel.guildId (env.channelCache ch) = some p.1

/-- Well-formedness of an inbox message: a member-join event carries the
guild id of the channel it concerns (guaranteed by the platform gateway). -/
def wfMessage (env : Env) : HandlerMessage → Bool
  | HandlerMessage.PlaySound member channelId =>
    match env.channelCache channelId with
    | some channel => channel.guildId == member.guildId
    | none => true
  | _ => true

theorem goodState_getOrInsert {env : Env} {calls : List (Nat × CallState)}
    (h : GoodState env calls) (g : Nat) : GoodState env (getOrInsert calls g) := by
  cases hl : List.lookup g calls with
  | some c => rw [getOrInsert_of_some hl]; exact h
  | none =>
    rw [getOrInsert_of_none hl]
    obtain ⟨hnd, hcon⟩ := h
    constructor
    · rw [List.map_append]
      refine List.Nodup.append hnd (List.nodup_singleton _) ?_
      intro a ha hb
      simp only [List.map_cons, List.map_nil, List.mem_singleton] at hb
      subst hb
      exact lookup_none_not_mem_keys hl ha
    · intro p hp ch hch
      rcases List.mem_append.mp hp with h1 | h1
      · exact hcon p h1 ch hch
      · simp only [List.mem_singleton] at h1
        subst h1
        simp [emptyCall] at hch

theorem goodState_updateCall {env : Env} {calls : List (Nat × CallState)}
    (h : GoodState env calls) (g : Nat) (f : CallState → CallState)
    (hf : ∀ c, (f c).joinedChannel = c.joinedChannel ∨ (f c).joinedChannel = none ∨
      ∃ ch, (f c).joinedChannel = some ch ∧
        Option.map GuildChannel.guildId (env.channelCache ch) = some g) :
    GoodState env (updateCall calls g f) := by
  obtain ⟨hnd, hcon⟩ := h
  constructor
  · rw [updateCall_keys]; exact hnd
  · intro p hp ch hch
    rcases mem_updateCall hp with h1 | ⟨c, hc, rfl⟩
    · exact hcon p h1 ch hch
    · change (f c).joinedChannel = some ch at hch
      show Option.map GuildChannel.guildId (env.channelCache ch) = some g
      rcases hf c with h2 | h2 | ⟨ch2, h2, h3⟩
      · rw [h2] at hch
        exact hcon (g, c) hc ch hch
      · rw [h2] at hch; cases hch
      · rw [h2] at hch
        cases hch
        exact h3

theorem goodState_readyStep {env : Env} {calls : List (Nat × CallState)}
    (h : GoodState env calls) (g : Nat) : GoodState env (readyStep calls g) :=
  goodState_updateCall (goodState_getOrInsert h g) g _ (fun _ => Or.inl rfl)

theorem goodState_ready_fold {env : Env} (l : List (Nat × GuildSettings))
    {calls : List (Nat × CallState)} (h : GoodState env calls) :
    GoodState env (l.foldl (fun cs p => readyStep cs p.1) calls) := by
  induction l generalizing calls with
  | nil => exact h
  | cons p rest ih => exact ih (goodState_readyStep h p.1)

theorem goodState_processMessage {env : Env} {settings : Settings}
    {calls : List (Nat × CallState)} (m : HandlerMessage)
    (h : GoodState env calls) (hwf : wfMessage env m = true) :
    GoodState env (processMessage env settings calls m).1 := by
  cases m with
  | Ready => exact goodState_ready_fold settings.guilds h
  | TrackEnded g =>
    show GoodState env (processTrackEnded env calls g).1
    cases hl : List.lookup g calls with
    | none => rw [processTrackEnded_of_no_call hl]; exact h
    | some call =>
      cases hq : call.queue.isEmpty with
      | false => rw [processTrackEnded_of_nonempty hl hq]; exact h
      | true =>
        rw [processTrackEnded_of_empty hl hq]
        exact goodState_updateCall h g _ (fun _ => Or.inr (Or.inl rfl))
  | PlaySound member channelId =>
    show GoodState env (processPlaySound env settings calls member channelId).1
    cases hres : resolveIntro env settings member channelId with
    | error e => rw [processPlaySound_of_resolve_fail hres]; exact h
    | ok pair =>
      obtain ⟨channel, intro⟩ := pair
      cases hsrc : env.sourceOk intro with
      | false =>
        obtain ⟨e, he⟩ := acquireSource_of_fail hsrc
        rw [processPlaySound_of_source_fail hres he]
        exact h
      | true =>
        have hcache := resolveIntro_ok_cache hres
        have hguild : channel.guildId = member.guildId := by
          simp only [wfMessage, hcache, beq_iff_eq] at hwf
          exact hwf
        cases hj : env.joinOk member.guildId channelId with
        | true =>
          rw [processPlaySound_of_join_ok hres hsrc hj]
          refine goodState_updateCall (goodState_getOrInsert h member.guildId)
            member.guildId _ (fun c => Or.inr (Or.inr ⟨channelId, rfl, ?_⟩))
          rw [hcache]
          simp [hguild]
        | false =>
          rw [processPlaySound_of_join_fail hres hsrc hj]
          exact goodState_updateCall (goodState_getOrInsert h member.guildId)
            member.guildId _ (fun _ => Or.inr (Or.inl rfl))

theorem goodState_processMessages {env : Env} {settings : Settings}
    {calls : List (Nat × CallState)} (msgs : List HandlerMessage)
    (h : GoodState env calls) (hwf : ∀ m ∈ msgs, wfMessage env m = true) :
    GoodState env (processMessages env settings calls msgs).1 := by
  induction msgs generalizing calls with
  | nil => exact h
  | cons m rest ih =>
    exact ih (goodState_processMessage m h (hwf m (List.mem_cons_self _ _)))
      (fun m2 hm2 => hwf m2 (List.mem_cons_of_mem _ hm2))

theorem sessionCount_le_one {env : Env} {calls : List (Nat × CallState)}
    (h : GoodState env calls) (ch : Nat) : sessionCount calls ch ≤ 1 := by
  obtain ⟨hnd, hcon⟩ := h
  unfold sessionCount
  cases hfl : calls.filter (fun p => decide (p.2.joinedChannel = some ch)) with
  | nil => simp
  | cons p tl =>
    cases tl with
    | nil => simp
    | cons q tl2 =>
      exfalso
      have hpmem : p ∈ calls.filter (fun p => decide (p.2.joinedChannel = some ch)) := by
        rw [hfl]; exact List.mem_cons_self _ _
      have hqmem : q ∈ calls.filter (fun p => decide (p.2.joinedChannel = some ch)) := by
        rw [hfl]; exact List.mem_cons_of_mem _ (List.mem_cons_self _ _)
      have hp := List.mem_filter.mp hpmem
      have hq := List.mem_filter.mp hqmem
      have hpch : p.2.joinedChannel = some ch := by simpa using hp.2
      have hqch : q.2.joinedChannel = some ch := by simpa using hq.2
      have h1 := hcon p hp.1 ch hpch
      have h2 := hcon q hq.1 ch hqch
      have hpq : p.1 = q.1 := by
        rw [h1] at h2
        exact Option.some_injective _ h2
      have hnd2 : ((calls.filter (fun p => decide (p.2.joinedChannel = some ch))).map
          Prod.fst).Nodup :=
        List.Nodup.sublist (List.Sublist.map Prod.fst (List.filter_sublist _)) hnd
      rw [hfl] at hnd2
      simp only [List.map_cons, List.nodup_cons] at hnd2
      exact hnd2.1 (by rw [hpq]; exact List.mem_cons_self _ _)

/-- Zero sessions for a channel means no call record is connected to it. -/
theorem sessionCount_eq_zero_iff {calls : List (Nat × CallState)} {ch : Nat} :
    sessionCount calls ch = 0 ↔ ∀ p ∈ calls, p.2.joinedChannel ≠ some ch := by
  unfold sessionCount
  rw [List.length_eq_zero, List.filter_eq_nil_iff]
  simp

/-! ## Concrete fixture: one guild (id 1) with channel "general" (id 10);
Alice has two configured intros, Bob has none. -/

/-- Alice's first configured intro source. -/
def introAlice : Intro := Intro.File ⟨"alice.mp3"⟩

/-- Fixture settings of Alice: two configured intros, "a" first. -/
def userAlice : UserSettings := ⟨[⟨"a", 100⟩, ⟨"b", 50⟩]⟩

/-- Fixture channel configuration of channel "general". -/
def channelEx : ChannelSettings :=
  ⟨[("Bob", ⟨[]⟩), ("Alice", userAlice)]⟩

/-- Fixture guild configuration of guild 1. -/
def guildEx : GuildSettings :=
  { name := "guild", soundDelay := 0,
    channels := [("general", channelEx)],
    intros := [("a", introAlice), ("b", Intro.Online ⟨"www"⟩)] }

/-- Fixture configuration. -/
def settingsEx : Settings := ⟨[(1, guildEx)]⟩

/-- Fixture platform oracle: channel 10 is "general" in guild 1 and every
external call succeeds. -/
def envEx : Env :=
  { channelCache := fun c => if c = 10 then some ⟨1, "general"⟩ else none,
    sourceOk := fun _ => true,
    joinOk := fun _ _ => true,
    leaveOk := fun _ => true }

/-- Fixture oracle whose decode subprocess always fails. -/
def envExNoSource : Env :=
  { envEx with sourceOk := fun _ => false }

/-- Fixture oracle whose platform join call always fails. -/
def envExNoJoin : Env :=
  { envEx with joinOk := fun _ _ => false }

/-- Fixture member with intros configured. -/
def alice : Member := ⟨"Alice", 1⟩

/-- Fixture member with zero intros configured. -/
def bob : Member := ⟨"Bob", 1⟩

/-! ## Claims -/

/-- C7: for every `PermissionSet` whose `Moderator` bit is set, `can(X)` is
true for every capability `X`, regardless of `X`'s own bit; without the
`Moderator` bit, `can(X)` is true exactly when `X`'s specific bit is set. -/
theorem moderator_superset_can (p : Permissions) :
    (p.bits &&& Permission.Moderator.toBits ≠ 0 → ∀ x : Permission, p.can x = true) ∧
    (p.bits &&& Permission.Moderator.toBits = 0 →
      ∀ x : Permission, p.can x = decide (0 < p.bits &&& x.toBits)) := by
  constructor
  · intro h x
    simp [Permissions.can, Nat.pos_of_ne_zero h]
  · intro h x
    simp [Permissions.can, h]

/-- C10: `voice_state_update` produces a `PlaySound` inbox message exactly
for a fresh voice connect: no previous voice state, member and channel
both present, and the username differing from the bot's own sentinel
name; any update with an existing prior state (move, mute, deafen)
produces no message, and every produced message is a `PlaySound`. -/
theorem voice_state_update_gate (old : Option VoiceState) (next : VoiceState)
    (m : Member) (c : Nat) :
    (voiceStateUpdate old next = some (HandlerMessage.PlaySound m c) ↔
      old = none ∧ next.member = some m ∧ next.channelId = some c ∧
        m.userName ≠ "MemeJoin") ∧
    (∀ v, old = some v → voiceStateUpdate old next = none) ∧
    (∀ msg, voiceStateUpdate old next = some msg →
      ∃ m2 c2, msg = HandlerMessage.PlaySound m2 c2) := by
  refine ⟨⟨?_, ?_⟩, ?_, ?_⟩
  · intro h
    cases old with
    | some v => simp [voiceStateUpdate] at h
    | none =>
      cases hm : next.member with
      | none => simp [voiceStateUpdate, hm] at h
      | some m2 =>
        cases hc : next.channelId with
        | none => simp [voiceStateUpdate, hm, hc] at h
        | some c2 =>
          simp only [voiceStateUpdate, hm, hc] at h
          by_cases hname : m2.userName = "MemeJoin"
          · simp [hname] at h
          · rw [if_neg hname] at h
            injection h with h2
            injection h2 with h3 h4
            subst h3
            subst h4
            exact ⟨rfl, rfl, rfl, hname⟩
  · rintro ⟨rfl, hm, hc, hname⟩
    simp [voiceStateUpdate, hm, hc, hname]
  · intro v hv
    subst hv
    rfl
  · intro msg h
    cases old with
    | some v => simp [voiceStateUpdate] at h
    | none =>
      cases hm : next.member with
      | none => simp [voiceStateUpdate, hm] at h
      | some m2 =>
        cases hc : next.channelId with
        | none => simp [voiceStateUpdate, hm, hc] at h
        | some c2 =>
          simp only [voiceStateUpdate, hm, hc] at h
          by_cases hname : m2.userName = "MemeJoin"
          · simp [hname] at h
          · rw [if_neg hname] at h
            exact ⟨m2, c2, (Option.some_injective _ h).symm⟩

/-- C2: processing `TrackEnded g` when the guild call's queue is empty
issues exactly one platform leave call, no join, and clears the session
record; when the queue is non-empty it issues no leave and no join and
leaves the state unchanged. -/
theorem track_ended_correct (env : Env) (settings : Settings)
    (calls : List (Nat × CallState)) (g : Nat) (call : CallState)
    (h : List.lookup g calls = some call) :
    (call.queue = [] →
      leaveCalls (processMessage env settings calls (HandlerMessage.TrackEnded g)).2 = 1 ∧
      joinCalls (processMessage env settings calls (HandlerMessage.TrackEnded g)).2 = 0 ∧
      List.lookup g (processMessage env settings calls (HandlerMessage.TrackEnded g)).1 =
        some { call with joinedChannel := none }) ∧
    (call.queue ≠ [] →
      (processMessage env settings calls (HandlerMessage.TrackEnded g)).1 = calls ∧
      leaveCalls (processMessage env settings calls (HandlerMessage.TrackEnded g)).2 = 0 ∧
      joinCalls (processMessage env settings calls (HandlerMessage.TrackEnded g)).2 = 0) := by
  have hpm : processMessage env settings calls (HandlerMessage.TrackEnded g) =
      processTrackEnded env calls g := rfl
  constructor
  · intro hq
    have hqe : call.queue.isEmpty = true := by simp [hq]
    rw [hpm, processTrackEnded_of_empty h hqe]
    refine ⟨?_, ?_, ?_⟩
    · cases hleave : call.joinedChannel.isSome && !env.leaveOk g <;>
        simp [hleave, leaveCalls, List.countP_append, List.countP_cons, Action.isLeaveCall]
    · cases hleave : call.joinedChannel.isSome && !env.leaveOk g <;>
        simp [hleave, joinCalls, List.countP_append, List.countP_cons, Action.isJoinCall]
    · exact lookup_updateCall_self _ h
  · intro hq
    have hqe : call.queue.isEmpty = false := by
      cases hql : call.queue with
      | nil => exact absurd hql hq
      | cons a tl => rfl
    rw [hpm, processTrackEnded_of_nonempty h hqe]
    exact ⟨rfl, by simp [leaveCalls, List.countP_cons, Action.isLeaveCall],
      by simp [joinCalls, List.countP_cons, Action.isJoinCall]⟩

/-- C6: a duplicate `TrackEnded` for a channel whose session was already
torn down (queue empty, no connected channel) produces no error log, no
join call, and leaves the orchestrator state unchanged: leaving an
already-left channel is a no-op. -/
theorem duplicate_track_ended_noop (env : Env) (settings : Settings)
    (calls : List (Nat × CallState)) (g : Nat) (call : CallState)
    (h : List.lookup g calls = some call) (hq : call.queue = [])
    (hj : call.joinedChannel = none) :
    (processMessage env settings calls (HandlerMessage.TrackEnded g)).1 = calls ∧
    errorLogs (processMessage env settings calls (HandlerMessage.TrackEnded g)).2 = 0 ∧
    joinCalls (processMessage env settings calls (HandlerMessage.TrackEnded g)).2 = 0 := by
  have hpm : processMessage env settings calls (HandlerMessage.TrackEnded g) =
      processTrackEnded env calls g := rfl
  have hqe : call.queue.isEmpty = true := by simp [hq]
  rw [hpm, processTrackEnded_of_empty h hqe]
  have hfix : updateCall calls g (fun c => { c with joinedChannel := none }) = calls := by
    refine updateCall_eq_of_fix h ?_
    cases call
    simp_all
  refine ⟨hfix, ?_, ?_⟩
  · simp [hj, errorLogs, List.countP_append, List.countP_cons, Action.isErrorLog]
  · simp [hj, joinCalls, List.countP_append, List.countP_cons, Action.isJoinCall]

/-- C3 counterexample: Bob has zero intros configured for channel
"general"; processing his join performs no platform join call but DOES
emit an error-level log line, contradicting the claim that no log entry
above informational level is produced. -/
theorem no_intro_emits_error_log :
    errorLogs (processMessage envEx settingsEx []
      (HandlerMessage.PlaySound bob 10)).2 = 1 ∧
    joinCalls (processMessage envEx settingsEx []
      (HandlerMessage.PlaySound bob 10)).2 = 0 := by
  decide

/-- C3 amended: a member-join event for a user with zero configured intros
for the channel (or unknown in the channel's configuration) performs no
platform join call and leaves the state unchanged — absence of an intro
does not disturb the session — but the orchestrator logs it at ERROR
level (exactly one error-level line), not merely informationally. -/
theorem no_intro_no_join (env : Env) (settings : Settings)
    (calls : List (Nat × CallState)) (member : Member) (channelId : Nat)
    (channel : GuildChannel) (guildSettings : GuildSettings)
    (channelSettings : ChannelSettings)
    (hc : env.channelCache channelId = some channel)
    (hg : List.lookup channel.guildId settings.guilds = some guildSettings)
    (hcs : List.lookup channel.name guildSettings.channels = some channelSettings)
    (hu : List.lookup member.userName channelSettings.users = none ∨
      ∃ user, List.lookup member.userName channelSettings.users = some user ∧
        user.intros = []) :
    joinCalls (processMessage env settings calls
      (HandlerMessage.PlaySound member channelId)).2 = 0 ∧
    errorLogs (processMessage env settings calls
      (HandlerMessage.PlaySound member channelId)).2 = 1 ∧
    (processMessage env settings calls
      (HandlerMessage.PlaySound member channelId)).1 = calls := by
  have hres : ∃ e, resolveIntro env settings member channelId = .error e := by
    rcases hu with hu | ⟨user, hu, hui⟩
    · exact ⟨"could not get user settings from name",
        by simp [resolveIntro, hc, hg, hcs, hu]⟩
    · exact ⟨"could not get user intro, none exist",
        by simp [resolveIntro, hc, hg, hcs, hu, hui]⟩
  obtain ⟨e, he⟩ := hres
  have hpm : processMessage env settings calls (HandlerMessage.PlaySound member channelId) =
      processPlaySound env settings calls member channelId := rfl
  rw [hpm, processPlaySound_of_resolve_fail he]
  refine ⟨?_, ?_, rfl⟩
  · simp [joinCalls, List.countP_cons, Action.isJoinCall, Action.isErrorLog]
  · simp [errorLogs, List.countP_cons, Action.isErrorLog]

/-- C4: when the resolved intro's audio-source acquisition fails (the
decoder or extractor subprocess cannot start or exits non-zero), the
orchestrator issues zero platform join calls, logs exactly one
error-level line, leaves the state unchanged, and the consumer loop
processes the remaining inbox messages exactly as it would have without
the failed event. -/
theorem source_failure_no_join (env : Env) (settings : Settings)
    (calls : List (Nat × CallState)) (member : Member) (channelId : Nat)
    (channel : GuildChannel) (guildSettings : GuildSettings)
    (channelSettings : ChannelSettings) (user : UserSettings)
    (introIndex : IntroIndex) (intro : Intro)
    (hc : env.channelCache channelId = some channel)
    (hg : List.lookup channel.guildId settings.guilds = some guildSettings)
    (hcs : List.lookup channel.name guildSettings.channels = some channelSettings)
    (hu : List.lookup member.userName channelSettings.users = some user)
    (hi : user.intros.head? = some introIndex)
    (hl : List.lookup introIndex.index guildSettings.intros = some intro)
    (hsrc : env.sourceOk intro = false) :
    joinCalls (processMessage env settings calls
      (HandlerMessage.PlaySound member channelId)).2 = 0 ∧
    errorLogs (processMessage env settings calls
      (HandlerMessage.PlaySound member channelId)).2 = 1 ∧
    (processMessage env settings calls
      (HandlerMessage.PlaySound member channelId)).1 = calls ∧
    ∀ rest, processMessages env settings calls
        (HandlerMessage.PlaySound member channelId :: rest) =
      ((processMessages env settings calls rest).1,
       (processMessage env settings calls
         (HandlerMessage.PlaySound member channelId)).2 ++
         (processMessages env settings calls rest).2) := by
  have hres : resolveIntro env settings member channelId = .ok (channel, intro) := by
    simp [resolveIntro, hc, hg, hcs, hu, hi, hl]
  obtain ⟨e, he⟩ := acquireSource_of_fail hsrc
  have hpm : processMessage env settings calls (HandlerMessage.PlaySound member channelId) =
      processPlaySound env settings calls member channelId := rfl
  have heq := @processPlaySound_of_source_fail env settings calls member channelId channel intro e hres he
  refine ⟨?_, ?_, ?_, ?_⟩
  · rw [hpm, heq]
    simp [joinCalls, List.countP_cons, Action.isJoinCall]
  · rw [hpm, heq]
    simp [errorLogs, List.countP_cons, Action.isErrorLog]
  · rw [hpm, heq]
  · intro rest
    simp only [processMessages]
    rw [hpm, heq]

/-- C5: when the platform join call fails after the call record was
created, the orchestrator logs one error, enqueues nothing, and no
session record for the target channel remains (no call is left connected
to that channel). -/
theorem join_failure_no_dangling_session (env : Env) (settings : Settings)
    (calls : List (Nat × CallState)) (member : Member) (channelId : Nat)
    (channel : GuildChannel) (guildSettings : GuildSettings)
    (channelSettings : ChannelSettings) (user : UserSettings)
    (introIndex : IntroIndex) (intro : Intro)
    (hc : env.channelCache channelId = some channel)
    (hg : List.lookup channel.guildId settings.guilds = some guildSettings)
    (hcs : List.lookup channel.name guildSettings.channels = some channelSettings)
    (hu : List.lookup member.userName channelSettings.users = some user)
    (hi : user.intros.head? = some introIndex)
    (hl : List.lookup introIndex.index guildSettings.intros = some intro)
    (hsrc : env.sourceOk intro = true)
    (hj : env.joinOk member.guildId channelId = false)
    (hsess : sessionCount calls channelId = 0) :
    sessionCount (processMessage env settings calls
      (HandlerMessage.PlaySound member channelId)).1 channelId = 0 ∧
    enqueueCalls (processMessage env settings calls
      (HandlerMessage.PlaySound member channelId)).2 = 0 ∧
    errorLogs (processMessage env settings calls
      (HandlerMessage.PlaySound member channelId)).2 = 1 := by
  have hres : resolveIntro env settings member channelId = .ok (channel, intro) := by
    simp [resolveIntro, hc, hg, hcs, hu, hi, hl]
  have hpm : processMessage env settings calls (HandlerMessage.PlaySound member channelId) =
      processPlaySound env settings calls member channelId := rfl
  have heq := @processPlaySound_of_join_fail env settings calls member channelId channel intro hres hsrc hj
  refine ⟨?_, ?_, ?_⟩
  · rw [hpm, heq]
    rw [sessionCount_eq_zero_iff]
    intro p hp
    rcases mem_updateCall hp with h1 | ⟨c, hc2, rfl⟩
    · rcases mem_getOrInsert h1 with h2 | rfl
      · exact sessionCount_eq_zero_iff.mp hsess p h2
      · simp [emptyCall]
    · simp
  · rw [hpm, heq]
    simp [enqueueCalls, List.countP_cons, Action.isEnqueueCall]
  · rw [hpm, heq]
    simp [errorLogs, List.countP_cons, Action.isErrorLog]

/-- C8: intro selection is deterministic and takes the first intro in
stored order: when the user's configured list is `introIndex :: tl`, the
action trace joins and enqueues exactly the guild-table source of
`introIndex`, independently of `tl`. -/
theorem intro_selection_takes_first (env : Env) (settings : Settings)
    (calls : List (Nat × CallState)) (member : Member) (channelId : Nat)
    (channel : GuildChannel) (guildSettings : GuildSettings)
    (channelSettings : ChannelSettings) (user : UserSettings)
    (introIndex : IntroIndex) (tl : List IntroIndex) (intro : Intro)
    (hc : env.channelCache channelId = some channel)
    (hg : List.lookup channel.guildId settings.guilds = some guildSettings)
    (hcs : List.lookup channel.name guildSettings.channels = some channelSettings)
    (hu : List.lookup member.userName channelSettings.users = some user)
    (hi : user.intros = introIndex :: tl)
    (hl : List.lookup introIndex.index guildSettings.intros = some intro)
    (hsrc : env.sourceOk intro = true)
    (hj : env.joinOk member.guildId channelId = true) :
    (processMessage env settings calls
      (HandlerMessage.PlaySound member channelId)).2 =
      [Action.logInfo "Got PlaySound message",
       Action.join member.guildId channelId,
       Action.enqueue member.guildId intro] := by
  have hres : resolveIntro env settings member channelId = .ok (channel, intro) := by
    simp [resolveIntro, hc, hg, hcs, hu, hi, hl]
  have hpm : processMessage env settings calls (HandlerMessage.PlaySound member channelId) =
      processPlaySound env settings calls member channelId := rfl
  rw [hpm, processPlaySound_of_join_ok hres hsrc hj]

/-- C1: at most one channel playback session exists per channel at every
observation point: starting from any well-formed state, after any
sequence of well-formed inbox messages — including multiple member-join
events for the same channel — at most one call record is connected to
any given channel. -/
theorem at_most_one_session_per_channel (env : Env) (settings : Settings)
    (calls : List (Nat × CallState)) (msgs : List HandlerMessage) (ch : Nat)
    (h : GoodState env calls) (hwf : ∀ m ∈ msgs, wfMessage env m = true) :
    sessionCount (processMessages env settings calls msgs).1 ch ≤ 1 :=
  sessionCount_le_one (goodState_processMessages msgs h hwf) ch

/-! ## Listener-count lemmas (claim C9) -/

theorem updateCall_of_no_key {l : List (Nat × CallState)} {g : Nat}
    (f : CallState → CallState) (h : List.lookup g l = none) : updateCall l g f = l := by
  induction l with
  | nil => rfl
  | cons p rest ih =>
    obtain ⟨k, c⟩ := p
    by_cases hk : k = g
    · subst hk; rw [lookup_cons_self] at h; cases h
    · rw [lookup_cons_ne c rest hk] at h
      simp [updateCall, hk, ih h]

theorem listenerCount_updateCall (calls : List (Nat × CallState)) (g g2 : Nat)
    (f : CallState → CallState) (hf : ∀ c, (f c).listeners = c.listeners) :
    listenerCount (updateCall calls g2 f) g = listenerCount calls g := by
  by_cases hg : g = g2
  · subst hg
    cases hl : List.lookup g calls with
    | none => rw [updateCall_of_no_key f hl]
    | some c => simp [listenerCount, lookup_updateCall_self f hl, hl, hf c]
  · simp [listenerCount, lookup_updateCall_ne _ f hg]

theorem listenerCount_getOrInsert (calls : List (Nat × CallState)) (g g2 : Nat) :
    listenerCount (getOrInsert calls g2) g = listenerCount calls g := by
  by_cases hg : g = g2
  · subst hg
    cases hl : List.lookup g calls with
    | none => simp [listenerCount, lookup_getOrInsert_self, hl, emptyCall]
    | some c => simp [listenerCount, lookup_getOrInsert_self, hl]
  · simp [listenerCount, lookup_getOrInsert_ne _ hg]

theorem listenerCount_readyStep_self (calls : List (Nat × CallState)) (g : Nat) :
    listenerCount (readyStep calls g) g = listenerCount calls g + 1 := by
  unfold readyStep
  have hl := lookup_getOrInsert_self calls g
  cases h : List.lookup g calls with
  | none =>
    rw [h] at hl
    simp [listenerCount, lookup_updateCall_self _ hl, h, emptyCall]
  | some c =>
    rw [h] at hl
    simp [listenerCount, lookup_updateCall_self _ hl, h]

theorem listenerCount_readyStep_ne (calls : List (Nat × CallState)) {g g2 : Nat}
    (h : g ≠ g2) : listenerCount (readyStep calls g2) g = listenerCount calls g := by
  unfold readyStep
  simp [listenerCount, lookup_updateCall_ne _ _ h, lookup_getOrInsert_ne _ h]

theorem listenerCount_ready_fold_not_mem (l : List (Nat × GuildSettings))
    (calls : List (Nat × CallState)) (g : Nat) (h : g ∉ l.map Prod.fst) :
    listenerCount (l.foldl (fun cs p => readyStep cs p.1) calls) g = listenerCount calls g := by
  induction l generalizing calls with
  | nil => rfl
  | cons p rest ih =>
    simp only [List.map_cons, List.mem_cons] at h
    push_neg at h
    simp only [List.foldl_cons]
    rw [ih _ h.2, listenerCount_readyStep_ne _ h.1]

theorem listenerCount_ready_fold_mem (l : List (Nat × GuildSettings))
    (calls : List (Nat × CallState)) (g : Nat)
    (hnd : (l.map Prod.fst).Nodup) (hg : g ∈ l.map Prod.fst) :
    listenerCount (l.foldl (fun cs p => readyStep cs p.1) calls) g =
      listenerCount calls g + 1 := by
  induction l generalizing calls with
  | nil => cases hg
  | cons p rest ih =>
    simp only [List.map_cons, List.nodup_cons] at hnd
    simp only [List.map_cons, List.mem_cons] at hg
    simp only [List.foldl_cons]
    rcases hg with hg | hg
    · subst hg
      rw [listenerCount_ready_fold_not_mem rest _ p.1 hnd.1, listenerCount_readyStep_self]
    · have hne : g ≠ p.1 := fun he => hnd.1 (he ▸ hg)
      rw [ih _ hnd.2 hg, listenerCount_readyStep_ne _ hne]

/-- C9 counterexample: the state after startup, a reconnect (second
`Ready`), and Alice joining channel 10. -/
def callsReconnect : List (Nat × CallState) :=
  (processMessages envEx settingsEx []
    [HandlerMessage.Ready, HandlerMessage.Ready,
     HandlerMessage.PlaySound alice 10]).1

/-- C9 counterexample: processing a second `Ready` (reconnect) appends a
second track-end listener for the guild instead of keeping one, so the
completed track fires two `TrackEnded` messages and their processing
issues two leave calls — a duplicate teardown attempt per completed
track. -/
theorem second_ready_duplicates_listeners :
    listenerCount callsReconnect 1 = 2 ∧
    (completeTrack callsReconnect 1).2 =
      [HandlerMessage.TrackEnded 1, HandlerMessage.TrackEnded 1] ∧
    leaveCalls (processMessages envEx settingsEx
      (completeTrack callsReconnect 1).1 (completeTrack callsReconnect 1).2).2 = 2 := by
  decide

/-- C9 amended: every `Ready` message registers exactly one additional
track-completion listener per known guild, and neither member-join nor
track-end processing registers listeners (no re-registration per join);
however a second `Ready` (reconnect) does NOT leave the listener count at
one — it appends another listener per guild, so each completed track then
produces duplicate `TrackEnded` messages and a duplicate (idempotent,
harmless) teardown attempt. -/
theorem ready_registers_one_listener (env : Env) (settings : Settings)
    (calls : List (Nat × CallState)) (g : Nat) (member : Member)
    (channelId : Nat) (g2 : Nat)
    (hnd : (settings.guilds.map Prod.fst).Nodup)
    (hg : g ∈ settings.guilds.map Prod.fst) :
    listenerCount (processMessage env settings calls HandlerMessage.Ready).1 g =
      listenerCount calls g + 1 ∧
    listenerCount (processMessage env settings calls
      (HandlerMessage.PlaySound member channelId)).1 g = listenerCount calls g ∧
    listenerCount (processMessage env settings calls
      (HandlerMessage.TrackEnded g2)).1 g = listenerCount calls g := by
  refine ⟨?_, ?_, ?_⟩
  · exact listenerCount_ready_fold_mem settings.guilds calls g hnd hg
  · show listenerCount (processPlaySound env settings calls member channelId).1 g =
      listenerCount calls g
    cases hres : resolveIntro env settings member channelId with
    | error e => rw [processPlaySound_of_resolve_fail hres]
    | ok pair =>
      obtain ⟨channel, intro⟩ := pair
      cases hsrc : env.sourceOk intro with
      | false =>
        obtain ⟨e, he⟩ := acquireSource_of_fail hsrc
        rw [processPlaySound_of_source_fail hres he]
      | true =>
        cases hj : env.joinOk member.guildId channelId with
        | true =>
          rw [processPlaySound_of_join_ok hres hsrc hj]
          show listenerCount (updateCall (getOrInsert calls member.guildId) member.guildId
            (fun c => { c with joinedChannel := some channelId, queue := c.queue ++ [intro] })) g =
            listenerCount calls g
          rw [listenerCount_updateCall (getOrInsert calls member.guildId) g member.guildId
                (fun c => { c with joinedChannel := some channelId, queue := c.queue ++ [intro] })
                (fun _ => rfl),
              listenerCount_getOrInsert]
        | false =>
          rw [processPlaySound_of_join_fail hres hsrc hj]
          show listenerCount (updateCall (getOrInsert calls member.guildId) member.guildId
            (fun c => { c with joinedChannel := none })) g = listenerCount calls g
          rw [listenerCount_updateCall (getOrInsert calls member.guildId) g member.guildId
                (fun c => { c with joinedChannel := none }) (fun _ => rfl),
              listenerCount_getOrInsert]
  · show listenerCount (processTrackEnded env calls g2).1 g = listenerCount calls g
    cases hl : List.lookup g2 calls with
    | none => rw [processTrackEnded_of_no_call hl]
    | some call =>
      cases hq : call.queue.isEmpty with
      | false => rw [processTrackEnded_of_nonempty hl hq]
      | true =>
        rw [processTrackEnded_of_empty hl hq]
        show listenerCount (updateCall calls g2
          (fun c => { c with joinedChannel := none })) g = listenerCount calls g
        exact listenerCount_updateCall calls g g2
          (fun c => { c with joinedChannel := none }) (fun _ => rfl)

/-! ## Witnesses: the claim theorems applied at concrete inputs -/

/-- A state with one empty session call: guild 1 connected to channel 10,
empty queue, one listener. -/
def callsActive : List (Nat × CallState) :=
  [(1, { joinedChannel := some 10, queue := [], listeners := 1 })]

/-- A state whose guild-1 call is already torn down. -/
def callsIdle : List (Nat × CallState) :=
  [(1, { joinedChannel := none, queue := [], listeners := 1 })]

/-- The empty state is well formed. -/
theorem goodState_nil (env : Env) : GoodState env [] :=
  ⟨List.nodup_nil, fun p hp => absurd hp (List.not_mem_nil p)⟩

/-- Witness for C1 at a concrete input: two join events of Alice for the
same channel still leave at most one session for channel 10. -/
theorem at_most_one_session_per_channel_witness :
    sessionCount (processMessages envEx settingsEx []
      [HandlerMessage.Ready, HandlerMessage.PlaySound alice 10,
       HandlerMessage.PlaySound alice 10]).1 10 ≤ 1 :=
  at_most_one_session_per_channel envEx settingsEx []
    [HandlerMessage.Ready, HandlerMessage.PlaySound alice 10,
     HandlerMessage.PlaySound alice 10] 10 (goodState_nil envEx) (by decide)

/-- Witness for C2 at a concrete input: one leave call, no join, session
record cleared. -/
theorem track_ended_correct_witness :
    leaveCalls (processMessage envEx settingsEx callsActive
      (HandlerMessage.TrackEnded 1)).2 = 1 ∧
    joinCalls (processMessage envEx settingsEx callsActive
      (HandlerMessage.TrackEnded 1)).2 = 0 ∧
    List.lookup 1 (processMessage envEx settingsEx callsActive
      (HandlerMessage.TrackEnded 1)).1 =
      some { joinedChannel := none, queue := [], listeners := 1 } :=
  (track_ended_correct envEx settingsEx callsActive 1
    { joinedChannel := some 10, queue := [], listeners := 1 } (by decide)).1 rfl

/-- Witness for C3 (amended) at a concrete input: Bob with zero intros. -/
theorem no_intro_no_join_witness :
    joinCalls (processMessage envEx settingsEx []
      (HandlerMessage.PlaySound bob 10)).2 = 0 ∧
    errorLogs (processMessage envEx settingsEx []
      (HandlerMessage.PlaySound bob 10)).2 = 1 ∧
    (processMessage envEx settingsEx []
      (HandlerMessage.PlaySound bob 10)).1 = [] :=
  no_intro_no_join envEx settingsEx [] bob 10 ⟨1, "general"⟩ guildEx channelEx
    (by decide) (by decide) (by decide)
    (Or.inr ⟨⟨[]⟩, by decide, rfl⟩)

/-- Witness for C4 at a concrete input: the decode subprocess for Alice's
file intro fails; no join, one error, and the next message (a Ready) is
processed exactly as from the untouched state. -/
theorem source_failure_no_join_witness :
    joinCalls (processMessage envExNoSource settingsEx []
      (HandlerMessage.PlaySound alice 10)).2 = 0 ∧
    errorLogs (processMessage envExNoSource settingsEx []
      (HandlerMessage.PlaySound alice 10)).2 = 1 ∧
    (processMessage envExNoSource settingsEx []
      (HandlerMessage.PlaySound alice 10)).1 = [] ∧
    processMessages envExNoSource settingsEx []
        [HandlerMessage.PlaySound alice 10, HandlerMessage.Ready] =
      ((processMessages envExNoSource settingsEx [] [HandlerMessage.Ready]).1,
       (processMessage envExNoSource settingsEx []
         (HandlerMessage.PlaySound alice 10)).2 ++
         (processMessages envExNoSource settingsEx [] [HandlerMessage.Ready]).2) := by
  have h := source_failure_no_join envExNoSource settingsEx [] alice 10
    ⟨1, "general"⟩ guildEx channelEx userAlice ⟨"a", 100⟩ introAlice
    (by decide) (by decide) (by decide) (by decide) (by decide) (by decide) (by decide)
  exact ⟨h.1, h.2.1, h.2.2.1, h.2.2.2 [HandlerMessage.Ready]⟩

/-- Witness for C5 at a concrete input: the platform join call fails; no
session remains for channel 10, nothing enqueued, one error log. -/
theorem join_failure_no_dangling_session_witness :
    sessionCount (processMessage envExNoJoin settingsEx []
      (HandlerMessage.PlaySound alice 10)).1 10 = 0 ∧
    enqueueCalls (processMessage envExNoJoin settingsEx []
      (HandlerMessage.PlaySound alice 10)).2 = 0 ∧
    errorLogs (processMessage envExNoJoin settingsEx []
      (HandlerMessage.PlaySound alice 10)).2 = 1 :=
  join_failure_no_dangling_session envExNoJoin settingsEx [] alice 10
    ⟨1, "general"⟩ guildEx channelEx userAlice ⟨"a", 100⟩ introAlice
    (by decide) (by decide) (by decide) (by decide) (by decide) (by decide)
    (by decide) (by decide) (by decide)

/-- Witness for C6 at a concrete input: a duplicate TrackEnded on the
already-torn-down guild-1 call changes nothing and logs no error. -/
theorem duplicate_track_ended_noop_witness :
    (processMessage envEx settingsEx callsIdle
      (HandlerMessage.TrackEnded 1)).1 = callsIdle ∧
    errorLogs (processMessage envEx settingsEx callsIdle
      (HandlerMessage.TrackEnded 1)).2 = 0 ∧
    joinCalls (processMessage envEx settingsEx callsIdle
      (HandlerMessage.TrackEnded 1)).2 = 0 :=
  duplicate_track_ended_noop envEx settingsEx callsIdle 1
    { joinedChannel := none, queue := [], listeners := 1 } (by decide) rfl rfl

/-- Witness for C8 at a concrete input: Alice has two configured intros
and the trace enqueues the source of the first one ("a"). -/
theorem intro_selection_takes_first_witness :
    (processMessage envEx settingsEx []
      (HandlerMessage.PlaySound alice 10)).2 =
      [Action.logInfo "Got PlaySound message",
       Action.join 1 10,
       Action.enqueue 1 introAlice] :=
  intro_selection_takes_first envEx settingsEx [] alice 10
    ⟨1, "general"⟩ guildEx channelEx userAlice ⟨"a", 100⟩ [⟨"b", 50⟩] introAlice
    (by decide) (by decide) (by decide) (by decide) (by decide) (by decide)
    (by decide) (by decide)

/-- Witness for C9 (amended) at a concrete input: one Ready adds exactly
one listener for guild 1; a join and a TrackEnded add none. -/
theorem ready_registers_one_listener_witness :
    listenerCount (processMessage envEx settingsEx []
      HandlerMessage.Ready).1 1 = listenerCount [] 1 + 1 ∧
    listenerCount (processMessage envEx settingsEx []
      (HandlerMessage.PlaySound alice 10)).1 1 = listenerCount [] 1 ∧
    listenerCount (processMessage envEx settingsEx []
      (HandlerMessage.TrackEnded 1)).1 1 = listenerCount [] 1 :=
  ready_registers_one_listener envEx settingsEx [] 1 alice 10 1
    (by decide) (by decide)

end Memejoin
